import Mathlib

/-!
Shallow embedding of the ChurnML preprocessing core
(`src/data/preprocessing.py` of the `wisescream/ChurnML` repository).

A pandas dataframe is modelled as a list of named, dtype-tagged columns of
cells; a cell is a rational number, a string, or missing (NaN).  The
scikit-learn components used by `build_preprocessing_pipeline` — median
`SimpleImputer` + `StandardScaler` for numeric columns, most-frequent
`SimpleImputer` + `OneHotEncoder(handle_unknown="ignore")` for categorical
columns, combined by a `ColumnTransformer` — are embedded by explicit
fit/transform functions over this dataframe model.  Standardized numeric
outputs `(x - mean) / sqrt(var)` are represented exactly by the pair
`(x - mean, var)` (constructor `FeatVal.scaled`) so that every definition
stays executable over ℚ; two equal representations denote equal reals, so
proving equality of outputs in this representation is sound.  Following
scikit-learn, a zero-variance column is scaled by 1 instead of sqrt(0).
Persistence (`joblib.dump` / `joblib.load`) is embedded as an explicit
encoder/decoder to a structured blob stored in a path-indexed store.
-/

namespace ChurnML

/-- Pandas column dtype, as far as the preprocessing core inspects it:
`pd.api.types.is_numeric_dtype` distinguishes numeric dtypes from
object/text dtypes. -/
inductive DType
| numeric
| object
deriving DecidableEq

/-- One cell of a dataframe column: a numeric value, a string, or NaN. -/
inductive Cell
| num (q : ℚ)
| str (s : String)
| missing
deriving DecidableEq

/-- A named dataframe column. -/
structure Column where
  name : String
  dtype : DType
  cells : List Cell
deriving DecidableEq

/-- A dataframe: an ordered list of named columns. -/
structure DataFrame where
  cols : List Column
deriving DecidableEq

def DataFrame.colNames (df : DataFrame) : List String :=
  df.cols.map Column.name

/-- `df[name]`: the first column with the given name. -/
def DataFrame.getCol (df : DataFrame) (n : String) : Option Column :=
  df.cols.find? (fun c => c.name == n)

/-- `df.drop(columns=ns)` restricted to the name-membership semantics the
preprocessing core relies on. -/
def DataFrame.dropCols (df : DataFrame) (ns : List String) : DataFrame :=
  ⟨df.cols.filter (fun c => !(ns.contains c.name))⟩

def DataFrame.nRows (df : DataFrame) : Nat :=
  match df.cols with
  | [] => 0
  | c :: _ => c.cells.length

/-- The cell of column `n` at row `i` (missing when out of range). -/
def cellAt (df : DataFrame) (n : String) (i : Nat) : Cell :=
  match df.getCol n with
  | some c => c.cells.getD i Cell.missing
  | none => Cell.missing

/-- Errors of the preprocessing core.  The spec's taxonomy (§7) names them
SchemaError / SchemaMismatchError / NotFoundError; the source raises
`KeyError` / scikit-learn errors / `FileNotFoundError` at the same points. -/
inductive PreprocError
| schemaError (msg : String)
| schemaMismatch (column : String)
| typeError (column : String)
| notFound (path : String)
| corruptArtifact
deriving DecidableEq

/-- `_TARGET_CANDIDATES` of `preprocessing.py`, in source order. -/
def TARGET_CANDIDATES : List String :=
  [("Churn"), ("Churn Label"), ("churn"), ("churn_label"), ("Churn_Label"), ("Churn Value")]

/-- The search order of `_resolve_target_column`: the preferred name first —
Python's `if preferred:` skips both `None` and the empty string — then the
fixed candidate list. -/
def searchOrder (preferred : Option String) : List String :=
  (match preferred with
   | some p => if p.isEmpty then [] else [p]
   | none => []) ++ TARGET_CANDIDATES

/-- Python `repr` of a string (single-quoted), as `"%s" % list` prints it. -/
def pyQuote (s : String) : String :=
  ("\x27") ++ s ++ ("\x27")

/-- Python `repr` of `_TARGET_CANDIDATES`, as interpolated into the error. -/
def candidatesRepr : String :=
  ("[") ++ String.intercalate (", ") (TARGET_CANDIDATES.map pyQuote) ++ ("]")

/-- The `KeyError` message of `_resolve_target_column`: it enumerates the full
candidate list and previews at most the first 20 actual column names. -/
def noTargetMessage (df : DataFrame) : String :=
  ("No churn target column found. Checked candidates ") ++ candidatesRepr ++
    (". Available columns: ") ++ String.intercalate (", ") (df.colNames.take 20)

/-- `_resolve_target_column`: first name of the search order present among the
columns, else the schema error. -/
def resolve_target_column (df : DataFrame) (preferred : Option String) :
    Except PreprocError String :=
  match (searchOrder preferred).find? (fun c => df.colNames.contains c) with
  | some c => .ok c
  | none => .error (.schemaError (noTargetMessage df))

/-- `_detect_feature_types`: every non-target column is numeric iff its dtype
is numeric, otherwise categorical; both lists keep dataframe column order
(the source's single loop appends to the two lists, which is exactly a
filter of the column list by each predicate). -/
def detect_feature_types (df : DataFrame) (target : String) :
    List String × List String :=
  ((df.cols.filter (fun c => c.name != target && c.dtype == DType.numeric)).map Column.name,
   (df.cols.filter (fun c => c.name != target && !(c.dtype == DType.numeric))).map Column.name)

/-- The unfit `ColumnTransformer` returned by `build_preprocessing_pipeline`:
its behaviour is fully determined by the two column lists (the imputation,
scaling and encoding steps are fixed by the source); the fitted state is
`FittedPipeline` below. -/
structure PipelineSpec where
  numerical : List String
  categorical : List String
deriving DecidableEq

/-- Learned state of the numeric branch for one column: the imputer's median
and the scaler's mean and (biased) variance, both computed by scikit-learn
on the median-imputed column. -/
structure NumStat where
  median : ℚ
  mean : ℚ
  varr : ℚ
deriving DecidableEq

/-- Learned state of the categorical branch for one column: the imputer's
most-frequent fill value and the encoder's category vocabulary (the sorted
distinct values of the imputed column, as `np.unique` orders them). -/
structure CatStat where
  fill : String
  categories : List String
deriving DecidableEq

/-- A fitted `ColumnTransformer`: per-column learned state, in the column
order the pipeline was built with. -/
structure FittedPipeline where
  num : List (String × NumStat)
  cat : List (String × CatStat)
deriving DecidableEq

/-- One entry of the output feature matrix.  `scaled c v` denotes the real
number `c / sqrt v` with `v > 0`; `q x` is the exact rational `x`
(indicator entries, and zero-variance columns which scikit-learn scales
by 1). -/
inductive FeatVal
| q (x : ℚ)
| scaled (centered : ℚ) (varr : ℚ)
deriving DecidableEq

/-- An output-column descriptor, the information of
`get_feature_names_out`: a numeric output carries its source column, a
categorical indicator carries its source column and its category. -/
inductive OutCol
| num (src : String)
| cat (src : String) (category : String)
deriving DecidableEq

abbrev FeatureMatrix := List (List FeatVal)

def Cell.toNum? : Cell → Option ℚ
  | .num q => some q
  | _ => none

def Cell.toStr? : Cell → Option String
  | .str s => some s
  | _ => none

/-- A column fed to the numeric branch must hold numbers or NaN; a string
makes scikit-learn's imputer raise. -/
def numOK (c : Column) : Bool :=
  c.cells.all (fun cell => match cell with | .str _ => false | _ => true)

/-- A column fed to the categorical branch holds strings or NaN in this
model. -/
def catOK (c : Column) : Bool :=
  c.cells.all (fun cell => match cell with | .num _ => false | _ => true)

def ratLeB (a b : ℚ) : Bool := decide (a ≤ b)

/-- Lexicographic strict order on strings by Unicode code point, the order
`np.unique` and Python use on `str`. -/
def charListLtB : List Char → List Char → Bool
  | [], [] => false
  | [], _ :: _ => true
  | _ :: _, [] => false
  | a :: as, b :: bs =>
    if a.toNat < b.toNat then true
    else if b.toNat < a.toNat then false
    else charListLtB as bs

def strLeB (a b : String) : Bool := !(charListLtB b.data a.data)

/-- Python's `str.strip()`: drop whitespace from both ends. -/
def pyStrip (s : String) : String :=
  ⟨((s.data.dropWhile Char.isWhitespace).reverse.dropWhile Char.isWhitespace).reverse⟩

/-- Python's `str.lower()` (over the ASCII range the targets use). -/
def pyLower (s : String) : String :=
  ⟨s.data.map Char.toLower⟩

def insortRat (v : ℚ) : List ℚ → List ℚ
  | [] => [v]
  | w :: ws => if ratLeB v w then v :: w :: ws else w :: insortRat v ws

def sortRat (l : List ℚ) : List ℚ := l.foldr insortRat []

def insortStr (v : String) : List String → List String
  | [] => [v]
  | w :: ws => if strLeB v w then v :: w :: ws else w :: insortStr v ws

def sortStr (l : List String) : List String := l.foldr insortStr []

def dedupStr (l : List String) : List String :=
  l.foldl (fun acc v => if acc.contains v then acc else acc ++ [v]) []

/-- `np.median` of the observed values (0 by convention on an empty list;
scikit-learn drops an all-missing column, a degenerate case no claim
exercises). -/
def median (l : List ℚ) : ℚ :=
  let s := sortRat l
  let n := s.length
  if n = 0 then 0
  else if n % 2 = 1 then s.getD (n / 2) 0
  else (s.getD (n / 2 - 1) 0 + s.getD (n / 2) 0) / 2

def countEq (l : List String) (v : String) : Nat :=
  (l.filter (fun w => w == v)).length

/-- `SimpleImputer(strategy="most_frequent")`: the smallest most-frequent
observed value (scipy's mode breaks ties toward the smallest). -/
def mostFrequent (l : List String) : String :=
  let s := sortStr (dedupStr l)
  match s with
  | [] => ("")
  | v :: vs => vs.foldl (fun best w => if countEq l w > countEq l best then w else best) v

/-- Fit the numeric branch on one column: median of observed values, then
mean and biased variance of the median-imputed column. -/
def fitNumStat (cells : List Cell) : NumStat :=
  let med := median (cells.filterMap Cell.toNum?)
  let imputed := cells.map (fun c => (c.toNum?).getD med)
  let n : ℚ := (imputed.length : ℚ)
  let mean := if n = 0 then 0 else imputed.sum / n
  let varr := if n = 0 then 0 else (imputed.map (fun x => (x - mean) * (x - mean))).sum / n
  ⟨med, mean, varr⟩

/-- Fit the categorical branch on one column: most-frequent fill value, then
the sorted distinct categories of the imputed column. -/
def fitCatStat (cells : List Cell) : CatStat :=
  let fill := mostFrequent (cells.filterMap Cell.toStr?)
  let imputed := cells.map (fun c => (c.toStr?).getD fill)
  ⟨fill, sortStr (dedupStr imputed)⟩

def fitNumFeatures : List String → DataFrame → Except PreprocError (List (String × NumStat))
  | [], _ => .ok []
  | n :: ns, df =>
    match df.getCol n with
    | none => .error (.schemaMismatch n)
    | some c =>
      if numOK c then (fitNumFeatures ns df).map (fun rest => (n, fitNumStat c.cells) :: rest)
      else .error (.typeError n)

def fitCatFeatures : List String → DataFrame → Except PreprocError (List (String × CatStat))
  | [], _ => .ok []
  | n :: ns, df =>
    match df.getCol n with
    | none => .error (.schemaMismatch n)
    | some c =>
      if catOK c then (fitCatFeatures ns df).map (fun rest => (n, fitCatStat c.cells) :: rest)
      else .error (.typeError n)

/-- `ColumnTransformer.fit`: learn every branch's state from the named
columns of `df`. -/
def fitPipeline (spec : PipelineSpec) (df : DataFrame) : Except PreprocError FittedPipeline :=
  match fitNumFeatures spec.numerical df with
  | .error e => .error e
  | .ok nf =>
    match fitCatFeatures spec.categorical df with
    | .error e => .error e
    | .ok cf => .ok ⟨nf, cf⟩

/-- Transform of one numeric cell: impute with the median, centre by the
mean, scale by sqrt of the variance (by 1 when the variance is zero,
following scikit-learn's `_handle_zeros_in_scale`). -/
def numEntry (st : NumStat) (c : Cell) : FeatVal :=
  let x := (c.toNum?).getD st.median
  let centered := x - st.mean
  if st.varr = 0 then .q centered else .scaled centered st.varr

/-- Transform of one categorical cell: impute missing with the fill value,
then one indicator per fit-time category; a value outside the vocabulary
yields all zeros (`handle_unknown="ignore"`). -/
def encodeCatCell (st : CatStat) (c : Cell) : List FeatVal :=
  let v := (c.toStr?).getD st.fill
  st.categories.map (fun cat => .q (if v = cat then 1 else 0))

/-- Output row `i` of a transform call: numeric entries in pipeline order,
then the indicator block of every categorical column in pipeline order. -/
def rowTransform (P : FittedPipeline) (df : DataFrame) (i : Nat) : List FeatVal :=
  P.num.map (fun p => numEntry p.2 (cellAt df p.1 i)) ++
    P.cat.flatMap (fun p => encodeCatCell p.2 (cellAt df p.1 i))

def numColErr (df : DataFrame) (n : String) : Option PreprocError :=
  match df.getCol n with
  | none => some (.schemaMismatch n)
  | some c => if numOK c then none else some (.typeError n)

def catColErr (df : DataFrame) (n : String) : Option PreprocError :=
  match df.getCol n with
  | none => some (.schemaMismatch n)
  | some c => if catOK c then none else some (.typeError n)

/-- The error a transform call raises, if any: a column the pipeline was fit
on is absent (the spec's SchemaMismatchError) or holds cells of the wrong
kind.  Cell *values* are never checked: unseen categories are not errors. -/
def transformError (P : FittedPipeline) (df : DataFrame) : Option PreprocError :=
  match P.num.findSome? (fun p => numColErr df p.1) with
  | some e => some e
  | none => P.cat.findSome? (fun p => catColErr df p.1)

/-- `ColumnTransformer.transform`: row-by-row application of the learned
state; fails iff a required column is missing or ill-typed. -/
def pipelineTransform (P : FittedPipeline) (df : DataFrame) :
    Except PreprocError FeatureMatrix :=
  match transformError P df with
  | some e => .error e
  | none => .ok ((List.range df.nRows).map (rowTransform P df))

/-- The output-column descriptors of a fitted pipeline: all numeric outputs
in pipeline order, then one indicator block per categorical column in
pipeline order.  A function of the pipeline alone, never of the batch. -/
def outputHeader (P : FittedPipeline) : List OutCol :=
  P.num.map (fun p => OutCol.num p.1) ++
    P.cat.flatMap (fun p => p.2.categories.map (OutCol.cat p.1))

/-- Python's `features or inferred`: an explicitly supplied list is kept
unless it is `None`; inside the fallback branch an *empty* supplied list is
also replaced by the inferred one (list truthiness). -/
def pyOrList (o : Option (List String)) (fallback : List String) : List String :=
  match o with
  | some l => if l.isEmpty then fallback else l
  | none => fallback

/-- `build_preprocessing_pipeline`: resolve the target, and consult the
feature-type detector only when at least one of the two lists is `None`;
when both are supplied the detector is skipped and the lists are used
exactly as given. -/
def build_preprocessing_pipeline (df : DataFrame) (targetColumn : String)
    (numerical_features categorical_features : Option (List String)) :
    Except PreprocError PipelineSpec :=
  match resolve_target_column df (some targetColumn) with
  | .error e => .error e
  | .ok t =>
    if numerical_features.isNone || categorical_features.isNone then
      let inferred := detect_feature_types df t
      .ok ⟨pyOrList numerical_features inferred.1, pyOrList categorical_features inferred.2⟩
    else
      .ok ⟨numerical_features.getD [], categorical_features.getD []⟩

/-- The leakage set of `preprocess_dataframe`: every known candidate present
in the dataframe other than the resolved target. -/
def duplicate_targets (df : DataFrame) (t : String) : List String :=
  TARGET_CANDIDATES.filter (fun c => df.colNames.contains c && c != t)

/-- `df.drop(columns=duplicate_targets)`. -/
def df_model (df : DataFrame) (t : String) : DataFrame :=
  df.dropCols (duplicate_targets df t)

/-- `X = df_model.drop(columns=[target])`: the source columns of the output
feature matrix. -/
def feature_frame (df : DataFrame) (t : String) : DataFrame :=
  (df_model df t).dropCols [t]

/-- One cell of the textual-target normalization
`y.str.strip().str.lower().map({"yes": 1, "no": 0}).fillna(0)`:
a non-string cell falls through the `.str` accessor as NaN and is filled
with 0. -/
def canonCell (c : Cell) : Cell :=
  match c with
  | .str s =>
      .num (if pyLower (pyStrip s) = ("yes") then 1
            else if pyLower (pyStrip s) = ("no") then 0 else 0)
  | _ => .num 0

/-- Target normalization of `preprocess_dataframe`: applied only when
`y.dtype == "O"`; numeric targets pass through unchanged. -/
def normalize_target (ycol : Column) : List Cell :=
  if ycol.dtype = DType.object then ycol.cells.map canonCell else ycol.cells

/-- The two branches of `preprocess_dataframe` after target/leakage
handling: transform-only with a supplied pipeline, or build + fit_transform
without one.  Either way the pipeline of the result is the one used. -/
def fitOrApply (dfm X : DataFrame) (t : String) (pipeline : Option FittedPipeline) :
    Except PreprocError (FeatureMatrix × FittedPipeline) :=
  match pipeline with
  | some p =>
    match pipelineTransform p X with
    | .error e => .error e
    | .ok m => .ok (m, p)
  | none =>
    match build_preprocessing_pipeline dfm t none none with
    | .error e => .error e
    | .ok spec =>
      match fitPipeline spec X with
      | .error e => .error e
      | .ok P =>
        match pipelineTransform P X with
        | .error e => .error e
        | .ok m => .ok (m, P)

/-- `preprocess_dataframe(df, target_column, pipeline)`: resolve the target,
drop the leakage columns, split off the target vector, fit or apply the
pipeline on the feature columns, and normalize the target. -/
def preprocess_dataframe (df : DataFrame) (targetColumn : String)
    (pipeline : Option FittedPipeline) :
    Except PreprocError (FeatureMatrix × List Cell × FittedPipeline) :=
  match resolve_target_column df (some targetColumn) with
  | .error e => .error e
  | .ok t =>
    match (df_model df t).getCol t with
    | none => .error (.schemaMismatch t)
    | some ycol =>
      match fitOrApply (df_model df t) (feature_frame df t) t pipeline with
      | .error e => .error e
      | .ok mp => .ok (mp.1, normalize_target ycol, mp.2)

/-- Serialized form of a pipeline artifact (the picklable object tree that
`joblib.dump` writes). -/
inductive Blob
| str (s : String)
| rat (q : ℚ)
| node (children : List Blob)

def encodeNumFeature (p : String × NumStat) : Blob :=
  .node [.str p.1, .rat p.2.median, .rat p.2.mean, .rat p.2.varr]

def encodeCatFeature (p : String × CatStat) : Blob :=
  .node [.str p.1, .str p.2.fill, .node (p.2.categories.map Blob.str)]

def encodePipeline (P : FittedPipeline) : Blob :=
  .node [.node (P.num.map encodeNumFeature), .node (P.cat.map encodeCatFeature)]

def decodeStrList : List Blob → Option (List String)
  | [] => some []
  | .str s :: rest => (decodeStrList rest).map (fun l => s :: l)
  | _ => none

def decodeNumFeature : Blob → Option (String × NumStat)
  | .node [.str n, .rat a, .rat b, .rat c] => some (n, ⟨a, b, c⟩)
  | _ => none

def decodeCatFeature : Blob → Option (String × CatStat)
  | .node [.str n, .str f, .node cats] =>
      (decodeStrList cats).map (fun l => (n, ⟨f, l⟩))
  | _ => none

def decodeNumFeatures : List Blob → Option (List (String × NumStat))
  | [] => some []
  | b :: rest =>
    match decodeNumFeature b with
    | some p => (decodeNumFeatures rest).map (fun l => p :: l)
    | none => none

def decodeCatFeatures : List Blob → Option (List (String × CatStat))
  | [] => some []
  | b :: rest =>
    match decodeCatFeature b with
    | some p => (decodeCatFeatures rest).map (fun l => p :: l)
    | none => none

def decodePipeline : Blob → Option FittedPipeline
  | .node [.node ns, .node cs] =>
    match decodeNumFeatures ns with
    | some nf =>
      match decodeCatFeatures cs with
      | some cf => some ⟨nf, cf⟩
      | none => none
    | none => none
  | _ => none

/-- The filesystem as the persistence layer sees it: a map from paths to
serialized artifacts (directory creation by `ensure_dir` has no observable
effect in this view). -/
abbrev Store := List (String × Blob)

/-- `save_pipeline`: serialize the fitted pipeline at the path. -/
def save_pipeline (P : FittedPipeline) (path : String) (store : Store) : Store :=
  (path, encodePipeline P) :: store

/-- `load_pipeline`: `FileNotFoundError` when the path does not exist, else
deserialize the stored artifact. -/
def load_pipeline (path : String) (store : Store) : Except PreprocError FittedPipeline :=
  match store.lookup path with
  | none => .error (.notFound path)
  | some b =>
    match decodePipeline b with
    | some P => .ok P
    | none => .error .corruptArtifact

/-! ### Supporting lemmas -/

theorem mem_colNames_iff (df : DataFrame) (n : String) :
    n ∈ df.colNames ↔ ∃ c ∈ df.cols, c.name = n := by
  simp [DataFrame.colNames]

theorem mem_colNames_dropCols (df : DataFrame) (ns : List String) (n : String) :
    n ∈ (df.dropCols ns).colNames ↔ n ∈ df.colNames ∧ n ∉ ns := by
  simp only [DataFrame.dropCols, DataFrame.colNames, List.mem_map, List.mem_filter,
    Bool.not_eq_true']
  constructor
  · rintro ⟨c, ⟨hc, hns⟩, rfl⟩
    exact ⟨⟨c, hc, rfl⟩, by simpa using hns⟩
  · rintro ⟨⟨c, hc, rfl⟩, hns⟩
    exact ⟨c, ⟨hc, by simpa using hns⟩, rfl⟩

theorem getCol_name (df : DataFrame) (n : String) (c : Column)
    (h : df.getCol n = some c) : c.name = n := by
  have := List.find?_some h
  simpa using this

theorem getCol_mem_colNames (df : DataFrame) (n : String) (c : Column)
    (h : df.getCol n = some c) : n ∈ df.colNames := by
  have hm := List.mem_of_find?_eq_some h
  exact (mem_colNames_iff df n).mpr ⟨c, hm, getCol_name df n c h⟩

theorem find?_eq_some_first (p : String → Bool) :
    ∀ (l : List String) (t : String),
      l.find? p = some t ↔
        ∃ l1 l2, l = l1 ++ t :: l2 ∧ p t = true ∧ ∀ c ∈ l1, p c = false := by
  intro l
  induction l with
  | nil => simp
  | cons a as ih =>
    intro t
    constructor
    · intro h
      cases hpa : p a with
      | true =>
        rw [List.find?_cons_of_pos _ hpa] at h
        obtain rfl : a = t := by simpa using h
        exact ⟨[], as, rfl, hpa, by simp⟩
      | false =>
        rw [List.find?_cons_of_neg _ (by simp [hpa])] at h
        obtain ⟨l1, l2, heq, hpt, hfalse⟩ := (ih t).mp h
        exact ⟨a :: l1, l2, by simp [heq], hpt, by
          intro c hc
          rcases List.mem_cons.mp hc with rfl | hc
          · exact hpa
          · exact hfalse c hc⟩
    · rintro ⟨l1, l2, heq, hpt, hfalse⟩
      cases l1 with
      | nil =>
        obtain ⟨rfl, rfl⟩ : a = t ∧ as = l2 := by simpa using heq
        exact List.find?_cons_of_pos _ hpt
      | cons b bs =>
        obtain ⟨rfl, has⟩ : a = b ∧ as = bs ++ t :: l2 := by simpa using heq
        have hpb : p a = false := hfalse a (by simp)
        rw [List.find?_cons_of_neg _ (by simp [hpb])]
        exact (ih t).mpr ⟨bs, l2, has, hpt, fun c hc => hfalse c (by simp [hc])⟩

theorem preprocess_eq_error (df : DataFrame) (t0 : String)
    (popt : Option FittedPipeline) (e : PreprocError)
    (hres : resolve_target_column df (some t0) = .error e) :
    preprocess_dataframe df t0 popt = .error e := by
  unfold preprocess_dataframe
  rw [hres]

theorem preprocess_eq_resolved (df : DataFrame) (t0 : String)
    (popt : Option FittedPipeline) (t : String)
    (hres : resolve_target_column df (some t0) = .ok t) :
    preprocess_dataframe df t0 popt =
      match (df_model df t).getCol t with
      | none => .error (.schemaMismatch t)
      | some ycol =>
        match fitOrApply (df_model df t) (feature_frame df t) t popt with
        | .error e => .error e
        | .ok mp => .ok (mp.1, normalize_target ycol, mp.2) := by
  unfold preprocess_dataframe
  rw [hres]

theorem preprocess_ok_iff (df : DataFrame) (t0 : String)
    (popt : Option FittedPipeline) (M : FeatureMatrix) (y : List Cell)
    (P : FittedPipeline) :
    preprocess_dataframe df t0 popt = .ok (M, y, P) ↔
      ∃ t ycol,
        resolve_target_column df (some t0) = .ok t ∧
        (df_model df t).getCol t = some ycol ∧
        fitOrApply (df_model df t) (feature_frame df t) t popt = .ok (M, P) ∧
        y = normalize_target ycol := by
  constructor
  · intro h
    cases hres : resolve_target_column df (some t0) with
    | error e =>
      rw [preprocess_eq_error df t0 popt e hres] at h
      exact absurd h (by simp)
    | ok t =>
      rw [preprocess_eq_resolved df t0 popt t hres] at h
      cases hy : (df_model df t).getCol t with
      | none => rw [hy] at h; exact absurd h (by simp)
      | some ycol =>
        rw [hy] at h
        cases hfa : fitOrApply (df_model df t) (feature_frame df t) t popt with
        | error e => rw [hfa] at h; exact absurd h (by simp)
        | ok mp =>
          obtain ⟨m1, P1⟩ := mp
          rw [hfa] at h
          obtain ⟨h1, h2, h3⟩ : m1 = M ∧ normalize_target ycol = y ∧ P1 = P := by
            simpa using h
          subst h1; subst h3
          exact ⟨t, ycol, rfl, hy, hfa, h2.symm⟩
  · rintro ⟨t, ycol, hres, hy, hfa, rfl⟩
    rw [preprocess_eq_resolved df t0 popt t hres, hy, hfa]

theorem fitOrApply_some_ok (dfm X : DataFrame) (t : String) (p : FittedPipeline)
    (M : FeatureMatrix) (P : FittedPipeline) :
    fitOrApply dfm X t (some p) = .ok (M, P) ↔
      pipelineTransform p X = .ok M ∧ P = p := by
  unfold fitOrApply
  cases h : pipelineTransform p X <;> simp [h, eq_comm, and_comm]

theorem fitOrApply_none_ok (dfm X : DataFrame) (t : String)
    (M : FeatureMatrix) (P : FittedPipeline) :
    fitOrApply dfm X t none = .ok (M, P) ↔
      ∃ spec,
        build_preprocessing_pipeline dfm t none none = .ok spec ∧
        fitPipeline spec X = .ok P ∧
        pipelineTransform P X = .ok M := by
  unfold fitOrApply
  cases hb : build_preprocessing_pipeline dfm t none none with
  | error e => simp [hb]
  | ok spec =>
    simp only [hb]
    cases hf : fitPipeline spec X with
    | error e => simp [hf]
    | ok P' =>
      simp only [hf]
      cases ht : pipelineTransform P' X with
      | error e =>
        simp only [ht]
        constructor
        · intro h; exact absurd h (by simp)
        · rintro ⟨s, hs, hfit, htr⟩
          obtain rfl : spec = s := by simpa using hs
          obtain rfl : P' = P := by rw [hf] at hfit; simpa using hfit
          rw [ht] at htr; exact absurd htr (by simp)
      | ok m =>
        simp only [ht]
        constructor
        · intro h
          obtain ⟨rfl, rfl⟩ : m = M ∧ P' = P := by simpa using h
          exact ⟨spec, rfl, hf, ht⟩
        · rintro ⟨s, hs, hfit, htr⟩
          obtain rfl : spec = s := by simpa using hs
          obtain rfl : P' = P := by rw [hf] at hfit; simpa using hfit
          rw [ht] at htr
          obtain rfl : m = M := by simpa using htr
          rfl

theorem fitOrApply_ok_transform (dfm X : DataFrame) (t : String)
    (popt : Option FittedPipeline) (M : FeatureMatrix) (P : FittedPipeline)
    (h : fitOrApply dfm X t popt = .ok (M, P)) :
    pipelineTransform P X = .ok M := by
  cases popt with
  | some p =>
    obtain ⟨ht, rfl⟩ := (fitOrApply_some_ok dfm X t p M P).mp h
    exact ht
  | none =>
    obtain ⟨spec, _, _, ht⟩ := (fitOrApply_none_ok dfm X t M P).mp h
    exact ht

theorem numColErr_none_iff (df : DataFrame) (n : String) :
    numColErr df n = none ↔ ∃ c, df.getCol n = some c ∧ numOK c = true := by
  unfold numColErr
  cases h : df.getCol n with
  | none => simp
  | some c => cases hok : numOK c <;> simp [hok]

theorem catColErr_none_iff (df : DataFrame) (n : String) :
    catColErr df n = none ↔ ∃ c, df.getCol n = some c ∧ catOK c = true := by
  unfold catColErr
  cases h : df.getCol n with
  | none => simp
  | some c => cases hok : catOK c <;> simp [hok]

theorem transformError_none_iff (P : FittedPipeline) (df : DataFrame) :
    transformError P df = none ↔
      (∀ p ∈ P.num, numColErr df p.1 = none) ∧
      (∀ p ∈ P.cat, catColErr df p.1 = none) := by
  unfold transformError
  cases h : P.num.findSome? (fun p => numColErr df p.1) with
  | some e =>
    simp only []
    constructor
    · intro hc; exact absurd hc (by simp)
    · rintro ⟨hnum, _⟩
      obtain ⟨p, hp, hpe⟩ := List.exists_of_findSome?_eq_some h
      rw [hnum p hp] at hpe
      exact absurd hpe (by simp)
  | none =>
    have hnum := List.findSome?_eq_none_iff.mp h
    simp only [List.findSome?_eq_none_iff]
    tauto

theorem pipelineTransform_ok_iff (P : FittedPipeline) (df : DataFrame)
    (M : FeatureMatrix) :
    pipelineTransform P df = .ok M ↔
      transformError P df = none ∧
      M = (List.range df.nRows).map (rowTransform P df) := by
  unfold pipelineTransform
  cases h : transformError P df <;> simp [h, eq_comm]

theorem transform_ok_features_present (P : FittedPipeline) (df : DataFrame)
    (M : FeatureMatrix) (h : pipelineTransform P df = .ok M) :
    (∀ n ∈ P.num.map Prod.fst, n ∈ df.colNames) ∧
    (∀ n ∈ P.cat.map Prod.fst, n ∈ df.colNames) := by
  obtain ⟨herr, -⟩ := (pipelineTransform_ok_iff P df M).mp h
  obtain ⟨hnum, hcat⟩ := (transformError_none_iff P df).mp herr
  constructor
  · intro n hn
    obtain ⟨p, hp, rfl⟩ := List.mem_map.mp hn
    obtain ⟨c, hc, -⟩ := (numColErr_none_iff df p.1).mp (hnum p hp)
    exact getCol_mem_colNames df p.1 c hc
  · intro n hn
    obtain ⟨p, hp, rfl⟩ := List.mem_map.mp hn
    obtain ⟨c, hc, -⟩ := (catColErr_none_iff df p.1).mp (hcat p hp)
    exact getCol_mem_colNames df p.1 c hc

theorem mem_duplicate_targets (df : DataFrame) (t c : String) :
    c ∈ duplicate_targets df t ↔
      c ∈ TARGET_CANDIDATES ∧ c ∈ df.colNames ∧ c ≠ t := by
  simp [duplicate_targets, List.mem_filter, and_assoc]

theorem candidate_not_in_feature_frame (df : DataFrame) (t c : String)
    (hc : c ∈ TARGET_CANDIDATES) (hne : c ≠ t) :
    c ∉ (feature_frame df t).colNames := by
  intro hmem
  have h1 := (mem_colNames_dropCols (df_model df t) [t] c).mp hmem
  have h2 := (mem_colNames_dropCols df (duplicate_targets df t) c).mp h1.1
  exact h2.2 ((mem_duplicate_targets df t c).mpr ⟨hc, h2.1, hne⟩)

/-! ### Claim theorems -/

/-- C1: on every successful `preprocess_dataframe` call — fitting a new
pipeline or applying an existing one — every known target-candidate name
other than the resolved target is absent from the source columns of the
output feature matrix (the columns of `X`), and names no feature of the
pipeline that produced the matrix. -/
theorem c1_leakage_exclusion (df : DataFrame) (t0 : String)
    (popt : Option FittedPipeline) (M : FeatureMatrix) (y : List Cell)
    (P : FittedPipeline) (t : String)
    (hres : resolve_target_column df (some t0) = .ok t)
    (hok : preprocess_dataframe df t0 popt = .ok (M, y, P)) :
    ∀ c ∈ TARGET_CANDIDATES, c ≠ t →
      c ∉ (feature_frame df t).colNames ∧
      c ∉ P.num.map Prod.fst ∧ c ∉ P.cat.map Prod.fst := by
  intro c hc hne
  have hX := candidate_not_in_feature_frame df t c hc hne
  obtain ⟨t', ycol, hres', hy, hfa, -⟩ := (preprocess_ok_iff df t0 popt M y P).mp hok
  obtain rfl : t = t' := by rw [hres] at hres'; simpa using hres'
  have htr := fitOrApply_ok_transform _ _ _ _ _ _ hfa
  obtain ⟨hnum, hcat⟩ := transform_ok_features_present P (feature_frame df t) M htr
  exact ⟨hX, fun hmem => hX (hnum c hmem), fun hmem => hX (hcat c hmem)⟩

/-- C2: with an `existing_pipeline`, `preprocess_dataframe` is transform-only:
the returned pipeline is the argument itself (no learned parameter is
recomputed — `pipelineTransform` is a pure function of the unchanged fitted
state) and the matrix is exactly its transform of the feature columns. -/
theorem c2_transform_only (df : DataFrame) (t0 : String) (p : FittedPipeline)
    (M : FeatureMatrix) (y : List Cell) (P : FittedPipeline)
    (hok : preprocess_dataframe df t0 (some p) = .ok (M, y, P)) :
    P = p ∧ ∃ t, resolve_target_column df (some t0) = .ok t ∧
      pipelineTransform p (feature_frame df t) = .ok M := by
  obtain ⟨t, ycol, hres, hy, hfa, -⟩ := (preprocess_ok_iff df t0 (some p) M y P).mp hok
  obtain ⟨htr, rfl⟩ := (fitOrApply_some_ok (df_model df t) (feature_frame df t) t p M P).mp hfa
  exact ⟨rfl, t, hres, htr⟩

set_option maxRecDepth 8192 in
/-- C3: target resolution returns the first name of the search order
(preferred name when supplied, then the fixed candidate list in its fixed
order) that is a column; it fails — with a schema error whose message
enumerates the full candidate list and previews at most the first 20 actual
columns — exactly when no name of the search order is a column. -/
theorem c3_target_resolution (df : DataFrame) (pref : Option String) :
    (∀ t, resolve_target_column df pref = .ok t ↔
      ∃ l1 l2, searchOrder pref = l1 ++ t :: l2 ∧ t ∈ df.colNames ∧
        ∀ c ∈ l1, c ∉ df.colNames) ∧
    (resolve_target_column df pref = .error (.schemaError (noTargetMessage df)) ↔
      ∀ c ∈ searchOrder pref, c ∉ df.colNames) ∧
    (∀ e, resolve_target_column df pref = .error e →
      e = .schemaError (noTargetMessage df)) ∧
    (∀ c ∈ TARGET_CANDIDATES, c.data <:+: (noTargetMessage df).data) ∧
    (∀ df' : DataFrame, df.colNames.take 20 = df'.colNames.take 20 →
      noTargetMessage df = noTargetMessage df') := by
  refine ⟨?_, ?_, ?_, ?_, ?_⟩
  · intro t
    unfold resolve_target_column
    cases hfind : (searchOrder pref).find? (fun c => df.colNames.contains c) with
    | some c =>
      simp only [Except.ok.injEq]
      constructor
      · rintro rfl
        obtain ⟨l1, l2, heq, hpt, hfalse⟩ := (find?_eq_some_first _ _ c).mp hfind
        exact ⟨l1, l2, heq, by simpa using hpt, fun x hx => by simpa using hfalse x hx⟩
      · rintro ⟨l1, l2, heq, hpt, hfalse⟩
        have : (searchOrder pref).find? (fun c => df.colNames.contains c) = some t :=
          (find?_eq_some_first _ _ t).mpr
            ⟨l1, l2, heq, by simpa using hpt, fun x hx => by simpa using hfalse x hx⟩
        rw [hfind] at this
        simpa using this
    | none =>
      simp only []
      constructor
      · intro h; exact absurd h (by simp)
      · rintro ⟨l1, l2, heq, hpt, -⟩
        have hmem : t ∈ searchOrder pref := by
          rw [heq]; exact List.mem_append_right _ (List.mem_cons_self _ _)
        have := List.find?_eq_none.mp hfind t hmem
        simp [hpt] at this
  · unfold resolve_target_column
    cases hfind : (searchOrder pref).find? (fun c => df.colNames.contains c) with
    | some c =>
      simp only []
      constructor
      · intro h; exact absurd h (by simp)
      · intro hall
        have hc := List.find?_some hfind
        have hmem := List.mem_of_find?_eq_some hfind
        exact absurd (by simpa using hc) (hall c hmem)
    | none =>
      simp only [Except.error.injEq, true_iff]
      intro c hc hmem
      have := List.find?_eq_none.mp hfind c hc
      simp [hmem] at this
  · intro e h
    unfold resolve_target_column at h
    cases hfind : (searchOrder pref).find? (fun c => df.colNames.contains c) with
    | some c => rw [hfind] at h; exact absurd h (by simp)
    | none => rw [hfind] at h; simpa using h.symm
  · intro c hc
    have h1 : c.data <:+: candidatesRepr.data := by
      simp only [TARGET_CANDIDATES, List.mem_cons, List.not_mem_nil, or_false] at hc
      rcases hc with rfl | rfl | rfl | rfl | rfl | rfl <;> decide
    refine h1.trans ⟨("No churn target column found. Checked candidates ").data,
      ((". Available columns: ") ++
        String.intercalate (", ") (df.colNames.take 20)).data, ?_⟩
    simp [noTargetMessage]
  · intro df' h
    simp [noTargetMessage, h]

/-- C4: the target vector of a successful `preprocess_dataframe` call is, for
a textual (object-dtype) target column, the cellwise map sending a string to
1 exactly when it equals "yes" after trimming and lowercasing and to 0
otherwise (so "no", unrecognized and missing values all map to 0); a
numeric-dtype target column passes through unchanged. -/
theorem c4_target_canonicalization (df : DataFrame) (t0 : String)
    (popt : Option FittedPipeline) (M : FeatureMatrix) (y : List Cell)
    (P : FittedPipeline) (t : String) (ycol : Column)
    (hres : resolve_target_column df (some t0) = .ok t)
    (hok : preprocess_dataframe df t0 popt = .ok (M, y, P))
    (hy : (df_model df t).getCol t = some ycol) :
    (ycol.dtype = DType.object →
      y = ycol.cells.map (fun c => match c with
        | .str s => Cell.num (if pyLower (pyStrip s) = ("yes") then 1 else 0)
        | _ => Cell.num 0)) ∧
    (ycol.dtype = DType.numeric → y = ycol.cells) := by
  obtain ⟨t', ycol', hres', hy', hfa, hnorm⟩ := (preprocess_ok_iff df t0 popt M y P).mp hok
  obtain rfl : t = t' := by rw [hres] at hres'; simpa using hres'
  obtain rfl : ycol = ycol' := by rw [hy] at hy'; simpa using hy'
  constructor
  · intro hd
    rw [hnorm, normalize_target, if_pos hd]
    apply List.map_congr_left
    intro c hc
    cases c with
    | str s =>
      simp only [canonCell]
      by_cases h1 : pyLower (pyStrip s) = ("yes")
      · simp [h1]
      · by_cases h2 : pyLower (pyStrip s) = ("no") <;> simp [h1, h2]
    | num q => rfl
    | missing => rfl
  · intro hd
    rw [hnorm, normalize_target, if_neg (by simp [hd])]

/-- C9: when both feature lists are supplied by the caller,
`build_preprocessing_pipeline` uses exactly the supplied numeric and
categorical lists, whatever the dataframe's columns are (the feature-type
detector is never consulted on this path). -/
theorem c9_explicit_split (df : DataFrame) (t0 : String) (ln lc : List String)
    (t : String) (hres : resolve_target_column df (some t0) = .ok t) :
    build_preprocessing_pipeline df t0 (some ln) (some lc) = .ok ⟨ln, lc⟩ := by
  unfold build_preprocessing_pipeline
  rw [hres]
  rfl

/-- C10: even with an existing pipeline (the inference-time apply path),
`preprocess_dataframe` first resolves the target: when neither the preferred
name nor any known candidate is a column, every such call fails with the
target-resolution schema error and returns no feature matrix. -/
theorem c10_apply_requires_target (df : DataFrame) (t0 : String)
    (h : ∀ c ∈ searchOrder (some t0), c ∉ df.colNames) :
    ∀ p : FittedPipeline,
      preprocess_dataframe df t0 (some p) =
        .error (.schemaError (noTargetMessage df)) := by
  intro p
  apply preprocess_eq_error
  unfold resolve_target_column
  have hnone : (searchOrder (some t0)).find? (fun c => df.colNames.contains c) = none := by
    rw [List.find?_eq_none]
    intro x hx
    simpa using h x hx
  rw [hnone]

theorem fitNumFeatures_names (ns : List String) (df : DataFrame)
    (nf : List (String × NumStat)) (h : fitNumFeatures ns df = .ok nf) :
    nf.map Prod.fst = ns := by
  induction ns generalizing nf with
  | nil =>
    obtain rfl : ([] : List (String × NumStat)) = nf := by simpa [fitNumFeatures] using h
    rfl
  | cons n ns ih =>
    simp only [fitNumFeatures] at h
    cases hg : df.getCol n with
    | none => rw [hg] at h; exact absurd h (by simp)
    | some c =>
      simp only [hg] at h
      by_cases hok : numOK c
      · rw [if_pos hok] at h
        cases hrest : fitNumFeatures ns df with
        | error e => rw [hrest] at h; exact absurd h (by simp [Except.map])
        | ok rest =>
          rw [hrest] at h
          obtain rfl : (n, fitNumStat c.cells) :: rest = nf := by
            simpa [Except.map] using h
          simp [ih rest hrest]
      · rw [if_neg hok] at h; exact absurd h (by simp)

theorem fitCatFeatures_names (ns : List String) (df : DataFrame)
    (cf : List (String × CatStat)) (h : fitCatFeatures ns df = .ok cf) :
    cf.map Prod.fst = ns := by
  induction ns generalizing cf with
  | nil =>
    obtain rfl : ([] : List (String × CatStat)) = cf := by simpa [fitCatFeatures] using h
    rfl
  | cons n ns ih =>
    simp only [fitCatFeatures] at h
    cases hg : df.getCol n with
    | none => rw [hg] at h; exact absurd h (by simp)
    | some c =>
      simp only [hg] at h
      by_cases hok : catOK c
      · rw [if_pos hok] at h
        cases hrest : fitCatFeatures ns df with
        | error e => rw [hrest] at h; exact absurd h (by simp [Except.map])
        | ok rest =>
          rw [hrest] at h
          obtain rfl : (n, fitCatStat c.cells) :: rest = cf := by
            simpa [Except.map] using h
          simp [ih rest hrest]
      · rw [if_neg hok] at h; exact absurd h (by simp)

theorem fitPipeline_ok_parts (spec : PipelineSpec) (D : DataFrame)
    (P : FittedPipeline) (hfit : fitPipeline spec D = .ok P) :
    fitNumFeatures spec.numerical D = .ok P.num ∧
    fitCatFeatures spec.categorical D = .ok P.cat := by
  unfold fitPipeline at hfit
  cases h1 : fitNumFeatures spec.numerical D with
  | error e => rw [h1] at hfit; exact absurd hfit (by simp)
  | ok nf =>
    rw [h1] at hfit
    cases h2 : fitCatFeatures spec.categorical D with
    | error e => rw [h2] at hfit; exact absurd hfit (by simp)
    | ok cf =>
      rw [h2] at hfit
      obtain rfl : FittedPipeline.mk nf cf = P := by simpa using hfit
      exact ⟨by simp [h1], by simp [h2]⟩

theorem rowTransform_length (P : FittedPipeline) (df : DataFrame) (i : Nat) :
    (rowTransform P df i).length = (outputHeader P).length := by
  simp only [rowTransform, outputHeader, List.length_append, List.length_map]
  congr 1
  simp only [List.length_flatMap]
  congr 1
  apply List.map_congr_left
  intro p hp
  simp [encodeCatCell, Function.comp]

/-- C5: a pipeline fitted from a (numeric, categorical) column split keeps
both lists in order as its feature lists; its output columns are all
numeric-branch outputs in the given numeric order followed by one indicator
block per categorical column in the given categorical order; and every
successful transform call — whatever the batch's row values — yields one row
per input row, each row exactly as long as that fixed output-column list. -/
theorem c5_pipeline_column_order (spec : PipelineSpec) (D : DataFrame)
    (P : FittedPipeline) (hfit : fitPipeline spec D = .ok P) :
    P.num.map Prod.fst = spec.numerical ∧
    P.cat.map Prod.fst = spec.categorical ∧
    outputHeader P = (spec.numerical.map OutCol.num) ++
      P.cat.flatMap (fun p => p.2.categories.map (OutCol.cat p.1)) ∧
    ∀ D' M, pipelineTransform P D' = .ok M →
      M.length = D'.nRows ∧ ∀ row ∈ M, row.length = (outputHeader P).length := by
  obtain ⟨hn, hc⟩ := fitPipeline_ok_parts spec D P hfit
  refine ⟨fitNumFeatures_names _ _ _ hn, fitCatFeatures_names _ _ _ hc, ?_, ?_⟩
  · rw [outputHeader, ← fitNumFeatures_names _ _ _ hn, List.map_map]
    rfl
  · intro D' M hM
    obtain ⟨-, rfl⟩ := (pipelineTransform_ok_iff P D' M).mp hM
    refine ⟨by simp, ?_⟩
    intro row hrow
    obtain ⟨i, -, rfl⟩ := List.mem_map.mp hrow
    exact rowTransform_length P D' i

/-- Schema-level compatibility of a batch with a fitted pipeline: every
column the pipeline was fit on is present with cells of the right kind.
This predicate never inspects which values the cells hold. -/
def compatibleFrame (P : FittedPipeline) (df : DataFrame) : Bool :=
  P.num.all (fun p => (df.getCol p.1).elim false numOK) &&
  P.cat.all (fun p => (df.getCol p.1).elim false catOK)

theorem numColErr_none_iff_elim (df : DataFrame) (n : String) :
    numColErr df n = none ↔ (df.getCol n).elim false numOK = true := by
  rw [numColErr_none_iff]
  cases h : df.getCol n <;> simp [h]

theorem catColErr_none_iff_elim (df : DataFrame) (n : String) :
    catColErr df n = none ↔ (df.getCol n).elim false catOK = true := by
  rw [catColErr_none_iff]
  cases h : df.getCol n <;> simp [h]

theorem transformError_none_iff_compatible (P : FittedPipeline) (df : DataFrame) :
    transformError P df = none ↔ compatibleFrame P df = true := by
  rw [transformError_none_iff]
  simp only [compatibleFrame, Bool.and_eq_true, List.all_eq_true]
  constructor
  · rintro ⟨h1, h2⟩
    exact ⟨fun p hp => (numColErr_none_iff_elim df p.1).mp (h1 p hp),
      fun p hp => (catColErr_none_iff_elim df p.1).mp (h2 p hp)⟩
  · rintro ⟨h1, h2⟩
    exact ⟨fun p hp => (numColErr_none_iff_elim df p.1).mpr (h1 p hp),
      fun p hp => (catColErr_none_iff_elim df p.1).mpr (h2 p hp)⟩

/-- C7: on a batch that is schema-compatible with the fitted pipeline
(required columns present with the right cell kinds — a condition
independent of the cell values), a transform-only call always succeeds;
a categorical value outside the fit-time vocabulary encodes to an all-zero
indicator block, and the affected row of the returned matrix carries that
all-zero block. -/
theorem c7_unseen_category (P : FittedPipeline) (df : DataFrame)
    (c : String) (st : CatStat) (v : String) (i : Nat)
    (hmem : (c, st) ∈ P.cat)
    (hcompat : compatibleFrame P df = true)
    (hcell : cellAt df c i = .str v)
    (hunseen : v ∉ st.categories)
    (hi : i < df.nRows) :
    encodeCatCell st (.str v) = List.replicate st.categories.length (FeatVal.q 0) ∧
    ∃ M, pipelineTransform P df = .ok M ∧
      ∃ row ∈ M, ∃ pre post,
        row = pre ++ List.replicate st.categories.length (FeatVal.q 0) ++ post := by
  have hzero : encodeCatCell st (.str v) =
      List.replicate st.categories.length (FeatVal.q 0) := by
    refine List.eq_replicate_iff.mpr ⟨by simp [encodeCatCell], ?_⟩
    intro b hb
    simp only [encodeCatCell, Cell.toStr?, Option.getD, List.mem_map] at hb
    obtain ⟨cat, hcat, rfl⟩ := hb
    have hne : v ≠ cat := fun h => hunseen (h ▸ hcat)
    simp [hne]
  have herr : transformError P df = none :=
    (transformError_none_iff_compatible P df).mpr hcompat
  refine ⟨hzero, (List.range df.nRows).map (rowTransform P df), ?_, ?_⟩
  · rw [pipelineTransform, herr]
  · refine ⟨rowTransform P df i, List.mem_map.mpr ⟨i, List.mem_range.mpr hi, rfl⟩, ?_⟩
    obtain ⟨l1, l2, hsplit⟩ := List.append_of_mem hmem
    refine ⟨P.num.map (fun p => numEntry p.2 (cellAt df p.1 i)) ++
        l1.flatMap (fun p => encodeCatCell p.2 (cellAt df p.1 i)),
      l2.flatMap (fun p => encodeCatCell p.2 (cellAt df p.1 i)), ?_⟩
    rw [rowTransform, hsplit, List.flatMap_append, List.flatMap_cons, hcell, hzero]
    simp [List.append_assoc]

theorem dtype_not_numeric_iff (d : DType) :
    (!(d == DType.numeric)) = true ↔ d = DType.object := by
  cases d <;> simp

theorem column_eq_of_name_eq (df : DataFrame) (hnd : df.colNames.Nodup)
    (c1 c2 : Column) (h1 : c1 ∈ df.cols) (h2 : c2 ∈ df.cols)
    (hname : c1.name = c2.name) : c1 = c2 :=
  List.inj_on_of_nodup_map hnd h1 h2 hname

/-- C8: on a dataframe with distinct column names, the feature type detector
returns two disjoint lists that together cover exactly the non-target
columns; a column lands in the numeric list iff its dtype is numeric (so an
all-missing numeric-dtype column is numeric) and in the categorical list iff
its dtype is object (textual), whatever its cell values look like. -/
theorem c8_feature_type_partition (df : DataFrame) (t : String)
    (hnd : df.colNames.Nodup) :
    (∀ n, n ∈ (detect_feature_types df t).1 ↔
      ∃ c ∈ df.cols, c.name = n ∧ n ≠ t ∧ c.dtype = DType.numeric) ∧
    (∀ n, n ∈ (detect_feature_types df t).2 ↔
      ∃ c ∈ df.cols, c.name = n ∧ n ≠ t ∧ c.dtype = DType.object) ∧
    (∀ n, ¬ (n ∈ (detect_feature_types df t).1 ∧ n ∈ (detect_feature_types df t).2)) ∧
    (∀ n, (n ∈ (detect_feature_types df t).1 ∨ n ∈ (detect_feature_types df t).2) ↔
      (n ∈ df.colNames ∧ n ≠ t)) := by
  have hiff1 : ∀ n, n ∈ (detect_feature_types df t).1 ↔
      ∃ c ∈ df.cols, c.name = n ∧ n ≠ t ∧ c.dtype = DType.numeric := by
    intro n
    constructor
    · intro hn
      obtain ⟨c, hcf, rfl⟩ := List.mem_map.mp hn
      obtain ⟨hc, hp⟩ := List.mem_filter.mp hcf
      simp only [Bool.and_eq_true, bne_iff_ne, beq_iff_eq] at hp
      exact ⟨c, hc, rfl, hp.1, hp.2⟩
    · rintro ⟨c, hc, rfl, hne, hd⟩
      exact List.mem_map.mpr ⟨c, List.mem_filter.mpr ⟨hc, by simp [hne, hd]⟩, rfl⟩
  have hiff2 : ∀ n, n ∈ (detect_feature_types df t).2 ↔
      ∃ c ∈ df.cols, c.name = n ∧ n ≠ t ∧ c.dtype = DType.object := by
    intro n
    constructor
    · intro hn
      obtain ⟨c, hcf, rfl⟩ := List.mem_map.mp hn
      obtain ⟨hc, hp⟩ := List.mem_filter.mp hcf
      simp only [Bool.and_eq_true, bne_iff_ne] at hp
      exact ⟨c, hc, rfl, hp.1, (dtype_not_numeric_iff c.dtype).mp hp.2⟩
    · rintro ⟨c, hc, rfl, hne, hd⟩
      refine List.mem_map.mpr ⟨c, List.mem_filter.mpr ⟨hc, ?_⟩, rfl⟩
      simp [hne, (dtype_not_numeric_iff c.dtype).mpr hd]
  refine ⟨hiff1, hiff2, ?_, ?_⟩
  · rintro n ⟨h1, h2⟩
    obtain ⟨c1, hc1, he1, -, hd1⟩ := (hiff1 n).mp h1
    obtain ⟨c2, hc2, he2, -, hd2⟩ := (hiff2 n).mp h2
    obtain rfl : c1 = c2 :=
      column_eq_of_name_eq df hnd c1 c2 hc1 hc2 (he1.trans he2.symm)
    rw [hd1] at hd2
    exact absurd hd2 (by simp)
  · intro n
    constructor
    · rintro (h | h)
      · obtain ⟨c, hc, rfl, hne, -⟩ := (hiff1 n).mp h
        exact ⟨(mem_colNames_iff df c.name).mpr ⟨c, hc, rfl⟩, hne⟩
      · obtain ⟨c, hc, rfl, hne, -⟩ := (hiff2 n).mp h
        exact ⟨(mem_colNames_iff df c.name).mpr ⟨c, hc, rfl⟩, hne⟩
    · rintro ⟨hmem, hne⟩
      obtain ⟨c, hc, rfl⟩ := (mem_colNames_iff df n).mp hmem
      cases hd : c.dtype with
      | numeric => exact Or.inl ((hiff1 c.name).mpr ⟨c, hc, rfl, hne, hd⟩)
      | object => exact Or.inr ((hiff2 c.name).mpr ⟨c, hc, rfl, hne, hd⟩)

theorem decodeStrList_encode (l : List String) :
    decodeStrList (l.map Blob.str) = some l := by
  induction l with
  | nil => rfl
  | cons s rest ih => simp [decodeStrList, ih]

theorem decodeNumFeature_encode (p : String × NumStat) :
    decodeNumFeature (encodeNumFeature p) = some p := rfl

theorem decodeCatFeature_encode (p : String × CatStat) :
    decodeCatFeature (encodeCatFeature p) = some p := by
  simp [encodeCatFeature, decodeCatFeature, decodeStrList_encode]

theorem decodeNumFeatures_encode (l : List (String × NumStat)) :
    decodeNumFeatures (l.map encodeNumFeature) = some l := by
  induction l with
  | nil => rfl
  | cons p rest ih => simp [decodeNumFeatures, decodeNumFeature_encode, ih]

theorem decodeCatFeatures_encode (l : List (String × CatStat)) :
    decodeCatFeatures (l.map encodeCatFeature) = some l := by
  induction l with
  | nil => rfl
  | cons p rest ih => simp [decodeCatFeatures, decodeCatFeature_encode, ih]

theorem decodePipeline_encode (P : FittedPipeline) :
    decodePipeline (encodePipeline P) = some P := by
  simp [encodePipeline, decodePipeline, decodeNumFeatures_encode, decodeCatFeatures_encode]

/-- C6: persistence round-trip — loading from the path just saved to yields
the very pipeline that was saved, so its transform of any dataset is
identical to the original pipeline's transform computed before
serialization. -/
theorem c6_persistence_roundtrip (P : FittedPipeline) (path : String) (store : Store) :
    load_pipeline path (save_pipeline P path store) = .ok P ∧
    ∀ df : DataFrame, ∃ P', load_pipeline path (save_pipeline P path store) = .ok P' ∧
      pipelineTransform P' df = pipelineTransform P df := by
  have h : load_pipeline path (save_pipeline P path store) = .ok P := by
    simp [load_pipeline, save_pipeline, List.lookup, decodePipeline_encode]
  exact ⟨h, fun df => ⟨P, h, rfl⟩⟩

/-! ### Concrete witness data -/

/-- A small dataframe with a leakage column (`Churn Value`) next to the
resolved target (`Churn`). -/
def Wdf : DataFrame :=
  ⟨[⟨("Contract"), .object, [.str ("A"), .str ("B")]⟩,
    ⟨("Churn"), .object, [.str ("No"), .str (" YES ")]⟩,
    ⟨("Churn Value"), .numeric, [.num 0, .num 1]⟩]⟩

/-- A fitted pipeline over the single categorical feature `Contract`. -/
def Wpipe : FittedPipeline :=
  ⟨[], [(("Contract"), ⟨("A"), [("A"), ("B")]⟩)]⟩

def Wycol : Column := ⟨("Churn"), .object, [.str ("No"), .str (" YES ")]⟩

theorem c1_witness :
    ("Churn Value") ∉ (feature_frame Wdf ("Churn")).colNames ∧
    ("Churn Value") ∉ Wpipe.num.map Prod.fst ∧
    ("Churn Value") ∉ Wpipe.cat.map Prod.fst :=
  c1_leakage_exclusion Wdf ("Churn") (some Wpipe)
    [[.q 1, .q 0], [.q 0, .q 1]] [.num 0, .num 1] Wpipe ("Churn")
    (by rfl) (by rfl) ("Churn Value") (by decide) (by decide)

theorem c2_witness :
    Wpipe = Wpipe ∧
    resolve_target_column Wdf (some ("Churn")) = .ok ("Churn") ∧
    pipelineTransform Wpipe (feature_frame Wdf ("Churn")) =
      .ok [[FeatVal.q 1, FeatVal.q 0], [FeatVal.q 0, FeatVal.q 1]] := by
  obtain ⟨h1, t, h2, h3⟩ := c2_transform_only Wdf ("Churn") Wpipe
    [[FeatVal.q 1, FeatVal.q 0], [FeatVal.q 0, FeatVal.q 1]] [Cell.num 0, Cell.num 1]
    Wpipe (by rfl)
  have h0 : resolve_target_column Wdf (some ("Churn")) = .ok ("Churn") := rfl
  rw [h0] at h2
  obtain rfl : ("Churn") = t := by simpa using h2
  exact ⟨h1, h0, h3⟩

theorem c4_witness :
    [Cell.num 0, Cell.num 1] = Wycol.cells.map (fun c => match c with
      | .str s => Cell.num (if pyLower (pyStrip s) = ("yes") then 1 else 0)
      | _ => Cell.num 0) :=
  (c4_target_canonicalization Wdf ("Churn") (some Wpipe)
    [[.q 1, .q 0], [.q 0, .q 1]] [.num 0, .num 1] Wpipe ("Churn") Wycol
    (by rfl) (by rfl) (by rfl)).1 (by rfl)

theorem c9_witness :
    build_preprocessing_pipeline Wdf ("Churn") (some [("v")]) (some []) =
      .ok ⟨[("v")], []⟩ :=
  c9_explicit_split Wdf ("Churn") [("v")] [] ("Churn") (by rfl)

def W10df : DataFrame := ⟨[⟨("x"), .numeric, [.num 1]⟩]⟩

theorem c10_witness :
    preprocess_dataframe W10df ("label") (some ⟨[], []⟩) =
      .error (.schemaError (noTargetMessage W10df)) :=
  c10_apply_requires_target W10df ("label") (by decide) ⟨[], []⟩

theorem c5_witness :
    Wpipe.num.map Prod.fst = ([] : List String) ∧
    Wpipe.cat.map Prod.fst = [("Contract")] ∧
    outputHeader Wpipe = (([] : List String).map OutCol.num) ++
      Wpipe.cat.flatMap (fun p => p.2.categories.map (OutCol.cat p.1)) ∧
    ([[FeatVal.q 1, FeatVal.q 0], [FeatVal.q 0, FeatVal.q 1]] : FeatureMatrix).length =
      Wdf.nRows ∧
    ([FeatVal.q 1, FeatVal.q 0] : List FeatVal).length = (outputHeader Wpipe).length := by
  obtain ⟨h1, h2, h3, h4⟩ := c5_pipeline_column_order ⟨[], [("Contract")]⟩ Wdf Wpipe (by rfl)
  obtain ⟨h5, h6⟩ :=
    h4 Wdf [[FeatVal.q 1, FeatVal.q 0], [FeatVal.q 0, FeatVal.q 1]] (by rfl)
  exact ⟨h1, h2, h3, h5, h6 [FeatVal.q 1, FeatVal.q 0] (by decide)⟩

/-- The fit-time state of the `Contract` column in `Wpipe`. -/
def W7st : CatStat := ⟨("A"), [("A"), ("B")]⟩

/-- A transform-only batch whose `Contract` value was never seen at fit
time. -/
def W7df : DataFrame := ⟨[⟨("Contract"), .object, [.str ("C")]⟩]⟩

theorem c7_witness :
    encodeCatCell W7st (.str ("C")) =
      List.replicate W7st.categories.length (FeatVal.q 0) ∧
    pipelineTransform Wpipe W7df = .ok [[FeatVal.q 0, FeatVal.q 0]] := by
  obtain ⟨hz, -⟩ := c7_unseen_category Wpipe W7df ("Contract") W7st ("C") 0
    (by decide) (by rfl) (by rfl) (by decide) (by decide)
  exact ⟨hz, rfl⟩

theorem c8_witness :
    ("Contract") ∈ (detect_feature_types Wdf ("Churn")).2 ∧
    ("Churn Value") ∈ (detect_feature_types Wdf ("Churn")).1 := by
  obtain ⟨h1, h2, -, -⟩ := c8_feature_type_partition Wdf ("Churn") (by decide)
  refine ⟨(h2 ("Contract")).mpr ?_, (h1 ("Churn Value")).mpr ?_⟩
  · exact ⟨⟨("Contract"), .object, [.str ("A"), .str ("B")]⟩, by decide, rfl, by decide, rfl⟩
  · exact ⟨⟨("Churn Value"), .numeric, [.num 0, .num 1]⟩, by decide, rfl, by decide, rfl⟩

end ChurnML
